import Mathlib

set_option maxHeartbeats 1000000

/-!
Shallow embedding of the per-channel enforcement state machine of
`lightning-signer-core/src/policy/validator.rs` (the `EnforcementState`
struct and its methods), together with a spec-modelled delayed-sweep
validator, and theorems about them.

Machine integers: all the counters involved are `u64` values that the
embedded operations only ever compare, copy, or advance by one starting
from zero, so they are modelled as `Nat` with exact arithmetic.
-/

/-- Modelled from the spec: `PublicKey` (a per-commitment point) is produced
by the key-derivation layer, which is out of scope; the enforcement state
machine only stores points and compares them for equality, so the type is
opaque here. -/
abbrev PublicKey := Nat

/-- Modelled from the spec: `PaymentHash` is a 32-byte opaque hash used only
as a map key; the type is opaque here. -/
abbrev PaymentHash := Nat

/-- Modelled from the spec: `HTLCInfo2` (defined in `tx/tx.rs`, outside the
given sources) is "payment hash, value in satoshi, CLTV expiry". -/
structure HTLCInfo2 where
  payment_hash : PaymentHash
  value_sat : Nat
  cltv_expiry : Nat
deriving DecidableEq, Repr

/-- Modelled from the spec: `CommitmentInfo2` (defined in `tx/tx.rs`,
outside the given sources) carries `to_broadcaster_value_sat`,
`to_countersigner_value_sat`, feerate per kw, the ordered list of offered
HTLCs and the ordered list of received HTLCs.  The derived keys are not
consulted by any embedded operation and are omitted. -/
structure CommitmentInfo2 where
  to_broadcaster_value_sat : Nat
  to_countersigner_value_sat : Nat
  feerate_per_kw : Nat
  offered_htlcs : List HTLCInfo2
  received_htlcs : List HTLCInfo2
deriving DecidableEq, Repr

/-- Validation errors.  `policy_err!` (defined in `policy/error.rs`, outside
the given sources) produces a `Policy` error whose message is the method
name followed by the formatted text, as witnessed by the unit tests in
`validator.rs`; transaction-format failures are a separate kind. -/
inductive ValidationError where
  | Policy (msg : String)
  | TransactionFormat (msg : String)
deriving DecidableEq, Repr

/-- Result of a Rust call that can also abort: `ok` models `Ok`, `err`
models `Err`, and `panicked` models a `panic!`/`assert!` abort. -/
inductive RResult (α : Type) where
  | ok (a : α)
  | err (e : ValidationError)
  | panicked (msg : String)
deriving DecidableEq, Repr

def RResult.isOk : RResult α → Bool
  | .ok _ => true
  | _ => false

def RResult.isErr : RResult α → Bool
  | .err _ => true
  | _ => false

def RResult.isPanicked : RResult α → Bool
  | .panicked _ => true
  | _ => false

/-- `EnforcementState` from `policy/validator.rs`. -/
structure EnforcementState where
  next_holder_commit_num : Nat
  next_counterparty_commit_num : Nat
  next_counterparty_revoke_num : Nat
  current_counterparty_point : Option PublicKey
  previous_counterparty_point : Option PublicKey
  current_holder_commit_info : Option CommitmentInfo2
  current_counterparty_commit_info : Option CommitmentInfo2
  previous_counterparty_commit_info : Option CommitmentInfo2
  mutual_close_signed : Bool
  initial_holder_value : Nat
deriving DecidableEq, Repr

namespace EnforcementState

/-- `EnforcementState::new`. -/
def new (initial_holder_value : Nat) : EnforcementState where
  next_holder_commit_num := 0
  next_counterparty_commit_num := 0
  next_counterparty_revoke_num := 0
  current_counterparty_point := none
  previous_counterparty_point := none
  current_holder_commit_info := none
  current_counterparty_commit_info := none
  previous_counterparty_commit_info := none
  mutual_close_signed := false
  initial_holder_value := initial_holder_value

/-- `EnforcementState::minimum_to_holder_value`. -/
def minimum_to_holder_value (st : EnforcementState) (epsilon_sat : Nat) : Option Nat :=
  match st.current_holder_commit_info, st.current_counterparty_commit_info with
  | some hinfo, some cinfo =>
    let hval := hinfo.to_broadcaster_value_sat
    let cval := cinfo.to_countersigner_value_sat
    if hval > cval then
      if hval - cval ≤ epsilon_sat then some cval else none
    else
      if cval - hval ≤ epsilon_sat then some hval else none
  | _, _ => none

/-- `EnforcementState::set_next_holder_commit_num`.  The Rust method mutates
`&mut self`; the embedding returns the call result together with the state
after the call. -/
def set_next_holder_commit_num (st : EnforcementState) (num : Nat)
    (current_commitment_info : CommitmentInfo2) :
    RResult Unit × EnforcementState :=
  let current := st.next_holder_commit_num
  if num ≠ current ∧ num ≠ current + 1 then
    (.err (.Policy s!"set_next_holder_commit_num: invalid progression: {current} to {num}"),
     st)
  else
    (.ok (), { st with
      next_holder_commit_num := num
      current_holder_commit_info := some current_commitment_info })

/-- `EnforcementState::set_next_counterparty_commit_num`.  The Rust method
mutates `&mut self`; the embedding returns the call result together with
the state after the call.  The `assert!` in the retry branch is modelled as
`panicked`. -/
def set_next_counterparty_commit_num (st : EnforcementState) (num : Nat)
    (current_point : PublicKey) (current_commitment_info : CommitmentInfo2) :
    RResult Unit × EnforcementState :=
  if num = 0 then
    (.err (.Policy "set_next_counterparty_commit_num: can\x27t set next to 0"), st)
  else
    -- The initial commitment is special, it can advance even though next_revoke is 0.
    let delta := if num = 1 then 1 else 2
    let rev := st.next_counterparty_revoke_num
    if num < rev + delta then
      (.err (.Policy
        s!"set_next_counterparty_commit_num: {num} too small relative to next_counterparty_revoke_num {rev}"),
       st)
    else if num > rev + 2 then
      (.err (.Policy
        s!"set_next_counterparty_commit_num: {num} too large relative to next_counterparty_revoke_num {rev}"),
       st)
    else
      let current := st.next_counterparty_commit_num
      if num = current then
        -- This is a retry.
        match st.current_counterparty_point with
        | none =>
          (.panicked
            s!"retry {num}: current_counterparty_point not set, this shouldn\x27t be possible",
           st)
        | some prior =>
          if current_point ≠ prior then
            (.err (.Policy
              s!"set_next_counterparty_commit_num: retry {num}: point different than prior"),
             st)
          else
            (.ok (), { st with next_counterparty_commit_num := num })
      else if num = current + 1 then
        (.ok (), { st with
          previous_counterparty_point := st.current_counterparty_point
          previous_counterparty_commit_info := st.current_counterparty_commit_info
          current_counterparty_point := some current_point
          current_counterparty_commit_info := some current_commitment_info
          next_counterparty_commit_num := num })
      else
        (.err (.Policy
          s!"set_next_counterparty_commit_num: invalid progression: {current} to {num}"),
         st)

/-- `EnforcementState::get_previous_counterparty_point`.  The
`unwrap_or_else(|| panic!(..))` is modelled as `panicked`. -/
def get_previous_counterparty_point (st : EnforcementState) (num : Nat) :
    RResult PublicKey :=
  let next := st.next_counterparty_commit_num
  let point :=
    if num + 1 = next then some st.current_counterparty_point
    else if num + 2 = next then some st.previous_counterparty_point
    else none
  match point with
  | none =>
    .err (.Policy s!"get_previous_counterparty_point: {num} out of range, next is {next}")
  | some (some p) => .ok p
  | some none =>
    .panicked
      s!"counterparty point for commit_num {num} not set, next_commitment_number is {next}"

/-- `EnforcementState::set_next_counterparty_revoke_num`.  The Rust method
mutates `&mut self`; the embedding returns the call result together with
the state after the call. -/
def set_next_counterparty_revoke_num (st : EnforcementState) (num : Nat) :
    RResult Unit × EnforcementState :=
  if num = 0 then
    (.err (.Policy "set_next_counterparty_revoke_num: can\x27t set next to 0"), st)
  else
    let commit := st.next_counterparty_commit_num
    if num + 2 < commit then
      (.err (.Policy
        s!"set_next_counterparty_revoke_num: {num} too small relative to next_counterparty_commit_num {commit}"),
       st)
    else if num + 1 > commit then
      (.err (.Policy
        s!"set_next_counterparty_revoke_num: {num} too large relative to next_counterparty_commit_num {commit}"),
       st)
    else
      let current := st.next_counterparty_revoke_num
      if num ≠ current ∧ num ≠ current + 1 then
        (.err (.Policy
          s!"set_next_counterparty_revoke_num: invalid progression: {current} to {num}"),
         st)
      else
        -- Remove any revoked commitment state.
        let st1 :=
          if num + 1 = commit then
            -- We can't remove the previous_counterparty_point, needed for retries.
            { st with previous_counterparty_commit_info := none }
          else st
        (.ok (), { st1 with next_counterparty_revoke_num := num })

/-- `EnforcementState::summarize_payments`.  The Rust function builds a
`Map<PaymentHash, u64>`; a finite map is embedded extensionally as the
function from keys to optional values, and `entry(..).and_modify(..)
.or_insert(..)` becomes the corresponding pointwise update. -/
def summarize_payments (htlcs : List HTLCInfo2) : PaymentHash → Option Nat :=
  htlcs.foldl
    (fun summary h => fun k =>
      if k = h.payment_hash then
        -- If there are multiple HTLCs for the same payment, sum them
        match summary h.payment_hash with
        | some e => some (e + h.value_sat)
        | none => some h.value_sat
      else summary k)
    (fun _ => none)

/-- `EnforcementState::payments_summary`.  The union loop over the
counterparty summary (`entry(k).and_modify(max).or_insert(v)`) is embedded
pointwise. -/
def payments_summary (st : EnforcementState)
    (new_holder_tx new_counterparty_tx : Option CommitmentInfo2) :
    PaymentHash → Option Nat :=
  let holder_offered :=
    (new_holder_tx.orElse fun _ => st.current_holder_commit_info).map
      fun h => h.offered_htlcs
  let counterparty_received :=
    (new_counterparty_tx.orElse fun _ => st.current_counterparty_commit_info).map
      fun c => c.received_htlcs
  let holder_summary :=
    match holder_offered with
    | some h => summarize_payments h
    | none => fun _ => none
  let counterparty_summary :=
    match counterparty_received with
    | some h => summarize_payments h
    | none => fun _ => none
  -- Union the two summaries, choosing the higher amount on common keys
  fun k =>
    match holder_summary k, counterparty_summary k with
    | some e, some v => some (max e v)
    | some e, none => some e
    | none, some v => some v
    | none, none => none

/-- `EnforcementState::incoming_payments_summary`.  The `retain` of keys
present in the counterparty summary followed by the `and_modify(min)` loop
is embedded pointwise: a key survives only when present in both summaries,
with the lower amount. -/
def incoming_payments_summary (st : EnforcementState)
    (new_holder_tx new_counterparty_tx : Option CommitmentInfo2) :
    PaymentHash → Option Nat :=
  let holder_received :=
    (new_holder_tx.orElse fun _ => st.current_holder_commit_info).map
      fun h => h.received_htlcs
  let counterparty_offered :=
    (new_counterparty_tx.orElse fun _ => st.current_counterparty_commit_info).map
      fun c => c.offered_htlcs
  let holder_summary :=
    match holder_received with
    | some h => summarize_payments h
    | none => fun _ => none
  let counterparty_summary :=
    match counterparty_offered with
    | some h => summarize_payments h
    | none => fun _ => none
  fun k =>
    match holder_summary k, counterparty_summary k with
    | some e, some v => some (min e v)
    | _, _ => none

end EnforcementState

/-- States reachable from `EnforcementState::new` by successful
`set_next_counterparty_commit_num` and `set_next_counterparty_revoke_num`
calls. -/
inductive Reachable : EnforcementState → Prop where
  | init (v : Nat) : Reachable (EnforcementState.new v)
  | step_commit {st st' : EnforcementState} {num : Nat} {p : PublicKey}
      {i : CommitmentInfo2} :
      Reachable st →
      st.set_next_counterparty_commit_num num p i = (.ok (), st') →
      Reachable st'
  | step_revoke {st st' : EnforcementState} {num : Nat} :
      Reachable st →
      st.set_next_counterparty_revoke_num num = (.ok (), st') →
      Reachable st'

-- scratch checks mirroring validator.rs tests
open EnforcementState

/-- Policy-error test: true exactly on `Err` results of the `Policy` kind. -/
def RResult.isPolicyErr : RResult α → Bool
  | .err (.Policy _) => true
  | _ => false

/-- Spec-side helper: whether some HTLC in the list carries the payment hash. -/
def hasHash (htlcs : List HTLCInfo2) (k : PaymentHash) : Bool :=
  htlcs.any fun h => h.payment_hash == k

/-- Spec-side helper: the summed satoshi value of the HTLCs carrying a given
payment hash. -/
def sumByHash (htlcs : List HTLCInfo2) (k : PaymentHash) : Nat :=
  ((htlcs.filter fun h => h.payment_hash == k).map fun h => h.value_sat).sum

/-- Two optional commitment views are equal up to a reordering of their HTLC
lists. -/
def ViewPerm : Option CommitmentInfo2 → Option CommitmentInfo2 → Prop
  | none, none => True
  | some x, some y =>
      x.to_broadcaster_value_sat = y.to_broadcaster_value_sat ∧
      x.to_countersigner_value_sat = y.to_countersigner_value_sat ∧
      x.feerate_per_kw = y.feerate_per_kw ∧
      x.offered_htlcs.Perm y.offered_htlcs ∧
      x.received_htlcs.Perm y.received_htlcs
  | _, _ => False

/-- Modelled from the spec: scripts are only compared against the wallet and
the allowlist, so the type is opaque here. -/
abbrev Script := Nat

/-- Modelled from the spec: the transaction input fields consulted by sweep
validation (the input sequence number). -/
structure TxIn where
  sequence : Nat
deriving DecidableEq, Repr

/-- Modelled from the spec: the transaction output fields consulted by sweep
validation. -/
structure TxOut where
  script_pubkey : Script
  value : Nat
deriving DecidableEq, Repr

/-- Modelled from the spec: the transaction fields consulted by sweep
validation (version, lock time, inputs, outputs). -/
structure Transaction where
  version : Int
  lock_time : Nat
  input : List TxIn
  output : List TxOut
deriving DecidableEq, Repr

/-- Modelled from the spec: the sweep fee lower bound of the production
policy, as witnessed by the message `fee below minimum: 0 < 100` in
`sign_delayed_sweep_tests.rs`. -/
def sweep_fee_min : Nat := 100

/-- Modelled from the spec: the sweep fee upper bound of the production
policy, as witnessed by the message `fee above maximum: 1978997 > 46000` in
`sign_delayed_sweep_tests.rs`. -/
def sweep_fee_max : Nat := 46000


def validate_delayed_sweep (wallet_can_spend : Script → List Nat → Bool)
    (allowlist_contains : Script → Bool) (contest_delay : Nat)
    (tx : Transaction) (input : Nat) (amount_sat : Nat) (key_path : List Nat) :
    RResult Unit :=
  match tx.input, tx.output with
  | [txin], [txout] =>
    if input ≠ 0 then
      .err (.TransactionFormat s!"validate_delayed_sweep: bad input index: {input} != 0")
    else if tx.version ≠ 2 then
      let v := tx.version
      .err (.TransactionFormat s!"validate_delayed_sweep: bad delayed sweep version: {v}")
    else if tx.lock_time > 0 then
      let lt := tx.lock_time
      .err (.TransactionFormat
        s!"validate_delayed_sweep: bad delayed sweep locktime: {lt} > 0")
    else if txin.sequence ≠ contest_delay then
      let sq := txin.sequence
      .err (.TransactionFormat
        s!"validate_delayed_sweep: bad delayed sweep sequence: {sq} != {contest_delay}")
    else if ¬ (wallet_can_spend txout.script_pubkey key_path ||
               allowlist_contains txout.script_pubkey) then
      .err (.Policy "validate_delayed_sweep: destination is not in wallet or allowlist")
    else if amount_sat < txout.value then
      let ov := txout.value
      .err (.Policy s!"delayed sweep fee underflow: {amount_sat} - {ov}")
    else
      let fee := amount_sat - txout.value
      if fee < sweep_fee_min then
        .err (.Policy s!"validate_fee: validate_delayed_sweep: fee below minimum: {fee} < 100")
      else if fee > sweep_fee_max then
        .err (.Policy
          s!"validate_fee: validate_delayed_sweep: fee above maximum: {fee} > 46000")
      else .ok ()
  | ins, outs =>
    if ins.length ≠ 1 then
      let ni := ins.length
      .err (.TransactionFormat
        s!"validate_delayed_sweep: bad number of delayed sweep inputs: {ni} != 1")
    else
      let no := outs.length
      .err (.TransactionFormat
        s!"validate_delayed_sweep: bad number of delayed sweep outputs: {no} != 1")

/-- Sample commitment info used by concrete witnesses. -/
def sampleInfo : CommitmentInfo2 := ⟨100, 200, 253, [], []⟩

/-- State after `set_next_counterparty_commit_num(1, 12, sampleInfo)` on a
fresh channel. -/
def w1 : EnforcementState :=
  ((EnforcementState.new 0).set_next_counterparty_commit_num 1 12 sampleInfo).2

/-- State after advancing `w1` with `set_next_counterparty_commit_num(2, 16,
sampleInfo)`. -/
def w2 : EnforcementState :=
  (w1.set_next_counterparty_commit_num 2 16 sampleInfo).2

/-- State after revoking commitment 0 on `w2` via
`set_next_counterparty_revoke_num(1)`. -/
def w3 : EnforcementState :=
  (w2.set_next_counterparty_revoke_num 1).2

/-- Sample HTLCs sharing one payment hash, used by concrete witnesses. -/
def htlcA : HTLCInfo2 := ⟨5, 10, 40⟩

/-- Second sample HTLC with the same payment hash as `htlcA`. -/
def htlcB : HTLCInfo2 := ⟨5, 7, 41⟩

/-- Inversion of a successful `set_next_counterparty_commit_num` call: the
guards passed and the call was either a retry or an advance with the
corresponding state update. -/

theorem commit_ok_inv {st st' : EnforcementState} {num : Nat} {p : PublicKey}
    {i : CommitmentInfo2}
    (h : st.set_next_counterparty_commit_num num p i = (.ok (), st')) :
    num ≠ 0 ∧
    st.next_counterparty_revoke_num + (if num = 1 then 1 else 2) ≤ num ∧
    num ≤ st.next_counterparty_revoke_num + 2 ∧
    ((num = st.next_counterparty_commit_num ∧
        st.current_counterparty_point = some p ∧
        st' = { st with next_counterparty_commit_num := num }) ∨
     (num = st.next_counterparty_commit_num + 1 ∧
        st' = { st with
          previous_counterparty_point := st.current_counterparty_point
          previous_counterparty_commit_info := st.current_counterparty_commit_info
          current_counterparty_point := some p
          current_counterparty_commit_info := some i
          next_counterparty_commit_num := num })) := by
  simp only [EnforcementState.set_next_counterparty_commit_num] at h
  by_cases h0 : num = 0
  · rw [if_pos h0] at h; exact absurd h (by simp)
  rw [if_neg h0] at h
  by_cases hlo : num < st.next_counterparty_revoke_num + if num = 1 then 1 else 2
  · rw [if_pos hlo] at h; exact absurd h (by simp)
  rw [if_neg hlo] at h
  by_cases hhi : num > st.next_counterparty_revoke_num + 2
  · rw [if_pos hhi] at h; exact absurd h (by simp)
  rw [if_neg hhi] at h
  by_cases hret : num = st.next_counterparty_commit_num
  · rw [if_pos hret] at h
    split at h
    · exact absurd h (by simp)
    · rename_i prior hcp
      by_cases hpt : p ≠ prior
      · rw [if_pos hpt] at h; exact absurd h (by simp)
      · rw [if_neg hpt] at h
        have hst : st' = { st with next_counterparty_commit_num := num } := by
          have h2 := congrArg Prod.snd h
          simpa using h2.symm
        exact ⟨h0, Nat.le_of_not_lt hlo, Nat.le_of_not_lt hhi,
          Or.inl ⟨hret, by rw [hcp, not_not.mp hpt], hst⟩⟩
  rw [if_neg hret] at h
  by_cases hadv : num = st.next_counterparty_commit_num + 1
  · rw [if_pos hadv] at h
    have hst : st' = { st with
        previous_counterparty_point := st.current_counterparty_point
        previous_counterparty_commit_info := st.current_counterparty_commit_info
        current_counterparty_point := some p
        current_counterparty_commit_info := some i
        next_counterparty_commit_num := num } := by
      have h2 := congrArg Prod.snd h
      simpa using h2.symm
    exact ⟨h0, Nat.le_of_not_lt hlo, Nat.le_of_not_lt hhi, Or.inr ⟨hadv, hst⟩⟩
  · rw [if_neg hadv] at h; exact absurd h (by simp)

/-- Inversion of a successful `set_next_counterparty_revoke_num` call. -/

theorem revoke_ok_inv {st st' : EnforcementState} {num : Nat}
    (h : st.set_next_counterparty_revoke_num num = (.ok (), st')) :
    num ≠ 0 ∧
    st.next_counterparty_commit_num ≤ num + 2 ∧
    num + 1 ≤ st.next_counterparty_commit_num ∧
    (num = st.next_counterparty_revoke_num ∨ num = st.next_counterparty_revoke_num + 1) ∧
    st' = { st with
      previous_counterparty_commit_info :=
        if num + 1 = st.next_counterparty_commit_num then none
        else st.previous_counterparty_commit_info
      next_counterparty_revoke_num := num } := by
  simp only [EnforcementState.set_next_counterparty_revoke_num] at h
  split_ifs at h with h0 hlo hhi hprog hclr
  · exact absurd h (by simp)
  · exact absurd h (by simp)
  · exact absurd h (by simp)
  · exact absurd h (by simp)
  · have hst := congrArg Prod.snd h
    refine ⟨h0, Nat.le_of_not_lt hlo, Nat.le_of_not_lt hhi, ?_, ?_⟩
    · rcases Decidable.not_and_iff_or_not.mp hprog with h1 | h2
      · exact Or.inl (not_not.mp h1)
      · exact Or.inr (not_not.mp h2)
    · rw [if_pos hclr]; simpa using hst.symm
  · have hst := congrArg Prod.snd h
    refine ⟨h0, Nat.le_of_not_lt hlo, Nat.le_of_not_lt hhi, ?_, ?_⟩
    · rcases Decidable.not_and_iff_or_not.mp hprog with h1 | h2
      · exact Or.inl (not_not.mp h1)
      · exact Or.inr (not_not.mp h2)
    · rw [if_neg hclr]; simpa using hst.symm

/-- Invariants (I2) and a strengthened (I3) of the spec, for reachable
states: a positive commit number has current point and info set, and a
commit number of at least two has the previous point set. -/

theorem reachable_points_inv {st : EnforcementState} (h : Reachable st) :
    (1 ≤ st.next_counterparty_commit_num →
      st.current_counterparty_point.isSome = true ∧
      st.current_counterparty_commit_info.isSome = true) ∧
    (2 ≤ st.next_counterparty_commit_num →
      st.previous_counterparty_point.isSome = true) := by
  induction h with
  | init v => constructor <;> intro hc <;> simp [EnforcementState.new] at hc
  | step_commit hr hok ih =>
    obtain ⟨h0, hlo, hhi, hcase⟩ := commit_ok_inv hok
    rcases hcase with ⟨hnum, hp, hst⟩ | ⟨hnum, hst⟩ <;> subst hst
    · refine ⟨fun _ => ⟨by simp [hp], ?_⟩, fun h2 => ?_⟩
      · exact (ih.1 (by omega)).2
      · dsimp only at h2 ⊢
        exact ih.2 (by omega)
    · refine ⟨fun _ => ⟨by simp, by simp⟩, fun h2 => ?_⟩
      dsimp only at h2 ⊢
      exact (ih.1 (by omega)).1
  | step_revoke hr hok ih =>
    obtain ⟨h0, hlo, hhi, hcase, hst⟩ := revoke_ok_inv hok
    subst hst
    exact ⟨fun h1 => ih.1 h1, fun h2 => ih.2 h2⟩

/-- The state `w1` is reachable. -/

theorem reachable_w1 : Reachable w1 :=
  @Reachable.step_commit (EnforcementState.new 0) w1 1 12 sampleInfo
    (Reachable.init 0) (by decide)

/-- The state `w2` is reachable. -/

theorem reachable_w2 : Reachable w2 :=
  @Reachable.step_commit w1 w2 2 16 sampleInfo reachable_w1 (by decide)

/-- An empty HTLC list carries no payment hash. -/

theorem hasHash_nil (k : PaymentHash) : hasHash [] k = false := rfl

/-- An empty HTLC list sums to zero for every payment hash. -/

theorem sumByHash_nil (k : PaymentHash) : sumByHash [] k = 0 := rfl

/-- `hasHash` is invariant under permutation of the HTLC list. -/

theorem hasHash_perm {l l' : List HTLCInfo2} (h : l.Perm l') (k : PaymentHash) :
    hasHash l k = hasHash l' k := by
  simp only [hasHash]
  rw [Bool.eq_iff_iff]
  simp only [List.any_eq_true]
  exact ⟨fun ⟨x, hx, hbx⟩ => ⟨x, h.mem_iff.mp hx, hbx⟩,
         fun ⟨x, hx, hbx⟩ => ⟨x, h.mem_iff.mpr hx, hbx⟩⟩

/-- `sumByHash` is invariant under permutation of the HTLC list. -/

theorem sumByHash_perm {l l' : List HTLCInfo2} (h : l.Perm l') (k : PaymentHash) :
    sumByHash l k = sumByHash l' k := by
  simp only [sumByHash]
  exact List.Perm.sum_eq (List.Perm.map _ (List.Perm.filter _ h))

/-- Characterization of the summarize fold for an arbitrary accumulator. -/

theorem summarize_aux (l : List HTLCInfo2) (acc : PaymentHash → Option Nat)
    (k : PaymentHash) :
    l.foldl
      (fun summary h => fun k2 =>
        if k2 = h.payment_hash then
          match summary h.payment_hash with
          | some e => some (e + h.value_sat)
          | none => some h.value_sat
        else summary k2) acc k =
      match acc k with
      | some e => some (e + sumByHash l k)
      | none => if hasHash l k then some (sumByHash l k) else none := by
  induction l generalizing acc with
  | nil => cases hacc : acc k <;> simp [sumByHash, hasHash, hacc]
  | cons hd t ih =>
    simp only [List.foldl_cons]
    rw [ih]
    have hsum : sumByHash (hd :: t) k =
        if hd.payment_hash == k then hd.value_sat + sumByHash t k
        else sumByHash t k := by
      simp only [sumByHash, List.filter_cons]
      split_ifs <;> simp
    have hhas : hasHash (hd :: t) k = ((hd.payment_hash == k) || hasHash t k) := by
      simp [hasHash]
    by_cases hk : k = hd.payment_hash
    · have hbk : (hd.payment_hash == k) = true := by simp [hk]
      rw [hsum, hhas, hbk]
      simp only [if_pos hk, ← hk]
      cases hacc : acc k <;> simp [hacc] <;> omega
    · have hbk : (hd.payment_hash == k) = false := by
        simp only [beq_eq_false_iff_ne, ne_eq]
        exact fun e => hk e.symm
      rw [hsum, hhas, hbk]
      simp only [if_neg hk]
      cases hacc : acc k <;> simp [hacc]

/-- `summarize_payments` maps a hash to the sum of the values of the HTLCs
carrying it, and to nothing when no HTLC carries it. -/

theorem summarize_payments_eq (l : List HTLCInfo2) (k : PaymentHash) :
    EnforcementState.summarize_payments l k =
      if hasHash l k then some (sumByHash l k) else none := by
  simp only [EnforcementState.summarize_payments]
  rw [summarize_aux]

/-- Closed form of `payments_summary`: per hash, the max of the per-view
sums, with a hash present in a single view contributing its single sum. -/

theorem payments_summary_closed (st : EnforcementState)
    (nh nc : Option CommitmentInfo2) (k : PaymentHash) :
    st.payments_summary nh nc k =
      (let hlist := ((nh.orElse fun _ => st.current_holder_commit_info).map
          fun h => h.offered_htlcs).getD []
       let clist := ((nc.orElse fun _ => st.current_counterparty_commit_info).map
          fun c => c.received_htlcs).getD []
       if hasHash hlist k then
         if hasHash clist k then some (max (sumByHash hlist k) (sumByHash clist k))
         else some (sumByHash hlist k)
       else if hasHash clist k then some (sumByHash clist k)
       else none) := by
  simp only [EnforcementState.payments_summary]
  rcases hh : nh.orElse fun _ => st.current_holder_commit_info with _ | hinfo <;>
    rcases hcc : nc.orElse fun _ => st.current_counterparty_commit_info with _ | cinfo <;>
    simp only [hh, hcc, Option.map_none', Option.map_some', Option.getD_none,
      Option.getD_some, summarize_payments_eq]
  · simp [hasHash_nil]
  · cases h2 : hasHash cinfo.received_htlcs k <;> simp [h2, hasHash_nil]
  · cases h2 : hasHash hinfo.offered_htlcs k <;> simp [h2, hasHash_nil]
  · cases h2 : hasHash hinfo.offered_htlcs k <;>
      cases h3 : hasHash cinfo.received_htlcs k <;> simp [h2, h3]

/-- Closed form of `incoming_payments_summary`: per hash, the min of the
two per-view sums when the hash occurs in both views, nothing otherwise. -/

theorem incoming_payments_summary_closed (st : EnforcementState)
    (nh nc : Option CommitmentInfo2) (k : PaymentHash) :
    st.incoming_payments_summary nh nc k =
      (let hlist := ((nh.orElse fun _ => st.current_holder_commit_info).map
          fun h => h.received_htlcs).getD []
       let clist := ((nc.orElse fun _ => st.current_counterparty_commit_info).map
          fun c => c.offered_htlcs).getD []
       if hasHash hlist k && hasHash clist k then
         some (min (sumByHash hlist k) (sumByHash clist k))
       else none) := by
  simp only [EnforcementState.incoming_payments_summary]
  rcases hh : nh.orElse fun _ => st.current_holder_commit_info with _ | hinfo <;>
    rcases hcc : nc.orElse fun _ => st.current_counterparty_commit_info with _ | cinfo <;>
    simp only [hh, hcc, Option.map_none', Option.map_some', Option.getD_none,
      Option.getD_some, summarize_payments_eq]
  · simp [hasHash_nil]
  · simp [hasHash_nil]
  · cases h2 : hasHash hinfo.received_htlcs k <;> simp [h2, hasHash_nil]
  · cases h2 : hasHash hinfo.received_htlcs k <;>
      cases h3 : hasHash cinfo.offered_htlcs k <;> simp [h2, h3]

/-- Case analysis of `ViewPerm`. -/

theorem ViewPerm.elim_cases {a b : Option CommitmentInfo2} (h : ViewPerm a b) :
    (a = none ∧ b = none) ∨
    ∃ x y, a = some x ∧ b = some y ∧
      x.offered_htlcs.Perm y.offered_htlcs ∧ x.received_htlcs.Perm y.received_htlcs := by
  cases a <;> cases b <;> simp_all [ViewPerm]

/-- `ViewPerm` is preserved by the or-else view selection. -/

theorem viewPerm_orElse {a a' b b' : Option CommitmentInfo2}
    (h1 : ViewPerm a a') (h2 : ViewPerm b b') :
    ViewPerm (a.orElse fun _ => b) (a'.orElse fun _ => b') := by
  cases a <;> cases a' <;> simp_all [ViewPerm, Option.orElse]
/-- C1: `set_next_counterparty_commit_num(num, point, info)` follows the
case table of the spec: it fails with a policy error when `num` is zero,
when `num` is below `next_counterparty_revoke_num` plus one (for `num = 1`)
or two (otherwise), when `num` exceeds `next_counterparty_revoke_num + 2`,
and when `num` is neither the current `next_counterparty_commit_num` nor its
successor; on a fresh state `num = 2` fails with the invalid-progression
message; and when the revoke-window guards pass and `num` is the successor
of `next_counterparty_commit_num`, the call succeeds, moving the current
counterparty point and commit info into the previous slots, storing the
supplied point and info as current, and setting the counter to `num`. -/

theorem c1_commit_num_case_table (st : EnforcementState) (num : Nat)
    (point : PublicKey) (info : CommitmentInfo2) :
    (num = 0 →
      (st.set_next_counterparty_commit_num num point info).1.isPolicyErr = true) ∧
    (num < st.next_counterparty_revoke_num + (if num = 1 then 1 else 2) →
      (st.set_next_counterparty_commit_num num point info).1.isPolicyErr = true) ∧
    (num > st.next_counterparty_revoke_num + 2 →
      (st.set_next_counterparty_commit_num num point info).1.isPolicyErr = true) ∧
    (num ≠ st.next_counterparty_commit_num ∧ num ≠ st.next_counterparty_commit_num + 1 →
      (st.set_next_counterparty_commit_num num point info).1.isPolicyErr = true) ∧
    ((EnforcementState.new 0).set_next_counterparty_commit_num 2 point info =
      (.err (.Policy "set_next_counterparty_commit_num: invalid progression: 0 to 2"),
       EnforcementState.new 0)) ∧
    (¬ num < st.next_counterparty_revoke_num + (if num = 1 then 1 else 2) →
     ¬ num > st.next_counterparty_revoke_num + 2 →
     num = st.next_counterparty_commit_num + 1 →
      st.set_next_counterparty_commit_num num point info =
        (.ok (), { st with
          previous_counterparty_point := st.current_counterparty_point
          previous_counterparty_commit_info := st.current_counterparty_commit_info
          current_counterparty_point := some point
          current_counterparty_commit_info := some info
          next_counterparty_commit_num := num })) := by
  refine ⟨?_, ?_, ?_, ?_, ?_, ?_⟩
  · intro h0
    simp [EnforcementState.set_next_counterparty_commit_num, h0, RResult.isPolicyErr]
  · intro hlo
    simp only [EnforcementState.set_next_counterparty_commit_num]
    by_cases h0 : num = 0
    · rw [if_pos h0]; rfl
    · rw [if_neg h0, if_pos hlo]; rfl
  · intro hhi
    simp only [EnforcementState.set_next_counterparty_commit_num]
    by_cases h0 : num = 0
    · rw [if_pos h0]; rfl
    rw [if_neg h0]
    by_cases hlo : num < st.next_counterparty_revoke_num + if num = 1 then 1 else 2
    · rw [if_pos hlo]; rfl
    · rw [if_neg hlo, if_pos hhi]; rfl
  · rintro ⟨hne, hne1⟩
    simp only [EnforcementState.set_next_counterparty_commit_num]
    by_cases h0 : num = 0
    · rw [if_pos h0]; rfl
    rw [if_neg h0]
    by_cases hlo : num < st.next_counterparty_revoke_num + if num = 1 then 1 else 2
    · rw [if_pos hlo]; rfl
    rw [if_neg hlo]
    by_cases hhi : num > st.next_counterparty_revoke_num + 2
    · rw [if_pos hhi]; rfl
    rw [if_neg hhi, if_neg hne, if_neg hne1]
    rfl
  · rfl
  · intro hlo hhi hadv
    simp only [EnforcementState.set_next_counterparty_commit_num]
    have h0 : ¬ num = 0 := by omega
    have hne : ¬ num = st.next_counterparty_commit_num := by omega
    rw [if_neg h0, if_neg hlo, if_neg hhi, if_neg hne, if_pos hadv]

/-- Witness for C1: advancing a fresh state to commitment number one. -/

theorem c1_commit_num_case_table_witness :
    (EnforcementState.new 0).set_next_counterparty_commit_num 1 37 sampleInfo =
      (.ok (), { EnforcementState.new 0 with
        previous_counterparty_point := none
        previous_counterparty_commit_info := none
        current_counterparty_point := some 37
        current_counterparty_commit_info := some sampleInfo
        next_counterparty_commit_num := 1 }) :=
  (c1_commit_num_case_table (EnforcementState.new 0) 1 37 sampleInfo).2.2.2.2.2
    (by decide) (by decide) (by decide)

/-- C2: after every successful `set_next_counterparty_commit_num` or
`set_next_counterparty_revoke_num` step from `EnforcementState.new`, either
all three commitment counters are zero (channel birth) or
`next_counterparty_revoke_num + 1 ≤ next_counterparty_commit_num ≤
next_counterparty_revoke_num + 2`. -/

theorem c2_counterparty_number_invariant (st : EnforcementState) (h : Reachable st) :
    (st.next_counterparty_commit_num = 0 ∧ st.next_counterparty_revoke_num = 0 ∧
     st.next_holder_commit_num = 0) ∨
    (st.next_counterparty_revoke_num + 1 ≤ st.next_counterparty_commit_num ∧
     st.next_counterparty_commit_num ≤ st.next_counterparty_revoke_num + 2) := by
  induction h with
  | init v => exact Or.inl ⟨rfl, rfl, rfl⟩
  | step_commit hr hok ih =>
    obtain ⟨h0, hlo, hhi, hcase⟩ := commit_ok_inv hok
    rcases hcase with ⟨hnum, hp, hst⟩ | ⟨hnum, hst⟩ <;> subst hst <;> right <;>
      dsimp only <;> split at hlo <;> omega
  | step_revoke hr hok ih =>
    obtain ⟨h0, hlo, hhi, hcase, hst⟩ := revoke_ok_inv hok
    subst hst
    right
    dsimp only
    omega

/-- Witness for C2: the invariant at a freshly created state. -/

theorem c2_counterparty_number_invariant_witness :
    ((EnforcementState.new 5).next_counterparty_commit_num = 0 ∧
     (EnforcementState.new 5).next_counterparty_revoke_num = 0 ∧
     (EnforcementState.new 5).next_holder_commit_num = 0) ∨
    ((EnforcementState.new 5).next_counterparty_revoke_num + 1 ≤
       (EnforcementState.new 5).next_counterparty_commit_num ∧
     (EnforcementState.new 5).next_counterparty_commit_num ≤
       (EnforcementState.new 5).next_counterparty_revoke_num + 2) :=
  c2_counterparty_number_invariant (EnforcementState.new 5) (Reachable.init 5)

/-- C3: whenever `set_next_holder_commit_num`,
`set_next_counterparty_commit_num` or `set_next_counterparty_revoke_num`
returns an error, the state after the call is equal to the state before
it. -/

theorem c3_failure_mutates_nothing (st : EnforcementState) :
    (∀ num info, (st.set_next_holder_commit_num num info).1.isErr = true →
      (st.set_next_holder_commit_num num info).2 = st) ∧
    (∀ num point info,
      (st.set_next_counterparty_commit_num num point info).1.isErr = true →
      (st.set_next_counterparty_commit_num num point info).2 = st) ∧
    (∀ num, (st.set_next_counterparty_revoke_num num).1.isErr = true →
      (st.set_next_counterparty_revoke_num num).2 = st) := by
  refine ⟨?_, ?_, ?_⟩
  · intro num info
    simp only [EnforcementState.set_next_holder_commit_num]
    split_ifs <;> simp [RResult.isErr]
  · intro num point info
    simp only [EnforcementState.set_next_counterparty_commit_num]
    split_ifs <;> try simp [RResult.isErr]
    all_goals
      rcases hcp : st.current_counterparty_point with _ | prior
      · simp [hcp, RResult.isErr]
      · by_cases hpt : point = prior
        · simp [hcp, hpt, RResult.isErr]
        · simp [hcp, hpt, RResult.isErr]
  · intro num
    simp only [EnforcementState.set_next_counterparty_revoke_num]
    split_ifs <;> simp [RResult.isErr]

/-- Witness for C3: a failing holder-counter skip leaves the fresh state
unchanged. -/

theorem c3_failure_mutates_nothing_witness :
    ((EnforcementState.new 0).set_next_holder_commit_num 5 sampleInfo).1.isErr = true ∧
    ((EnforcementState.new 0).set_next_holder_commit_num 5 sampleInfo).2 =
      EnforcementState.new 0 :=
  ⟨by decide,
   (c3_failure_mutates_nothing (EnforcementState.new 0)).1 5 sampleInfo (by decide)⟩

/-- C4: when `set_next_counterparty_revoke_num(num)` succeeds with
`num + 1 = next_counterparty_commit_num`, afterwards
`previous_counterparty_commit_info` is cleared while
`previous_counterparty_point` and every field other than
`next_counterparty_revoke_num` and `previous_counterparty_commit_info` keep
their prior values. -/

theorem c4_revoke_advance_clears_only_previous_info
    (st st' : EnforcementState) (num : Nat)
    (hok : st.set_next_counterparty_revoke_num num = (.ok (), st'))
    (hadv : num + 1 = st.next_counterparty_commit_num) :
    st'.previous_counterparty_commit_info = none ∧
    st'.previous_counterparty_point = st.previous_counterparty_point ∧
    st'.next_counterparty_revoke_num = num ∧
    st'.next_holder_commit_num = st.next_holder_commit_num ∧
    st'.next_counterparty_commit_num = st.next_counterparty_commit_num ∧
    st'.current_counterparty_point = st.current_counterparty_point ∧
    st'.current_holder_commit_info = st.current_holder_commit_info ∧
    st'.current_counterparty_commit_info = st.current_counterparty_commit_info ∧
    st'.mutual_close_signed = st.mutual_close_signed ∧
    st'.initial_holder_value = st.initial_holder_value := by
  obtain ⟨-, -, -, -, hst⟩ := revoke_ok_inv hok
  subst hst
  refine ⟨?_, rfl, rfl, rfl, rfl, rfl, rfl, rfl, rfl, rfl⟩
  dsimp only
  rw [if_pos hadv]

/-- Witness for C4: revoking commitment 0 on `w2` clears the previous
commit info and keeps the previous point. -/

theorem c4_revoke_advance_clears_only_previous_info_witness :
    w3.previous_counterparty_commit_info = none ∧
    w3.previous_counterparty_point = w2.previous_counterparty_point :=
  have h := c4_revoke_advance_clears_only_previous_info w2 w3 1 (by decide) (by decide)
  ⟨h.1, h.2.1⟩

/-- Counterexample for C5: in the reachable state `w3` (fresh state, two
commitment advances, one revocation), a retry of commitment number 2 with
the matching current point is rejected with a too-small-relative-to-revoke
policy error, so a matching-point retry does not always return Ok. -/

theorem c5_retry_counterexample :
    Reachable w3 ∧
    w3.next_counterparty_commit_num = 2 ∧
    w3.current_counterparty_point = some 16 ∧
    (w3.set_next_counterparty_commit_num 2 16 sampleInfo).1 =
      .err (.Policy
        "set_next_counterparty_commit_num: 2 too small relative to next_counterparty_revoke_num 1") := by
  refine ⟨?_, by decide, by decide, by decide⟩
  exact @Reachable.step_revoke w2 w3 1 reachable_w2 (by decide)

/-- C5 (amended): provided the revoke-window guards pass, a retry of
`set_next_counterparty_commit_num` with the number equal to
`next_counterparty_commit_num` and the point equal to
`current_counterparty_point` returns Ok and leaves the state unchanged, for
every supplied commitment info; with a different point it fails with the
retry-different-point policy error and the state is returned unchanged. -/

theorem c5_retry_amended (st : EnforcementState) (num : Nat) (p q : PublicKey)
    (info info2 : CommitmentInfo2)
    (hnum : num = st.next_counterparty_commit_num) (h1 : 1 ≤ num)
    (hp : st.current_counterparty_point = some p)
    (hlo : ¬ num < st.next_counterparty_revoke_num + (if num = 1 then 1 else 2))
    (hhi : ¬ num > st.next_counterparty_revoke_num + 2) :
    st.set_next_counterparty_commit_num num p info = (.ok (), st) ∧
    (q ≠ p →
      st.set_next_counterparty_commit_num num q info2 =
        (.err (.Policy s!"set_next_counterparty_commit_num: retry {num}: point different than prior"),
         st)) := by
  have h0 : ¬ num = 0 := by omega
  constructor
  · simp only [EnforcementState.set_next_counterparty_commit_num,
      if_neg h0, if_neg hlo, if_neg hhi, if_pos hnum, hp]
    rw [if_neg (not_not_intro rfl), hnum, ← hp]
  · intro hqp
    simp only [EnforcementState.set_next_counterparty_commit_num,
      if_neg h0, if_neg hlo, if_neg hhi, if_pos hnum, hp]
    rw [if_pos hqp]

/-- Witness for C5 (amended): a retry of commitment 1 on `w1`. -/

theorem c5_retry_amended_witness :
    w1.set_next_counterparty_commit_num 1 12 sampleInfo = (.ok (), w1) ∧
    w1.set_next_counterparty_commit_num 1 13 sampleInfo =
      (.err (.Policy "set_next_counterparty_commit_num: retry 1: point different than prior"),
       w1) :=
  have h := c5_retry_amended w1 1 12 13 sampleInfo sampleInfo
    (by decide) (by decide) (by decide) (by decide) (by decide)
  ⟨h.1, h.2 (by decide)⟩

/-- C6: `minimum_to_holder_value(epsilon_sat)` returns a value exactly when
both current commit infos are present and the holder broadcaster value and
counterparty countersigner value differ by at most `epsilon_sat`, in which
case the value is their minimum; with epsilon 10, holder value 100000 and
counterparty value 100005 it returns 100000. -/

theorem c6_minimum_to_holder_value :
    (∀ (st : EnforcementState) (eps v : Nat),
      st.minimum_to_holder_value eps = some v ↔
        ∃ hinfo cinfo,
          st.current_holder_commit_info = some hinfo ∧
          st.current_counterparty_commit_info = some cinfo ∧
          max (hinfo.to_broadcaster_value_sat - cinfo.to_countersigner_value_sat)
              (cinfo.to_countersigner_value_sat - hinfo.to_broadcaster_value_sat) ≤ eps ∧
          v = min hinfo.to_broadcaster_value_sat cinfo.to_countersigner_value_sat) ∧
    ({ EnforcementState.new 0 with
        current_holder_commit_info := some ⟨100000, 0, 0, [], []⟩
        current_counterparty_commit_info := some ⟨0, 100005, 0, [], []⟩
      } : EnforcementState).minimum_to_holder_value 10 = some 100000 := by
  constructor
  · intro st eps v
    rcases hh : st.current_holder_commit_info with _ | hinfo <;>
      rcases hcc : st.current_counterparty_commit_info with _ | cinfo <;>
      simp only [EnforcementState.minimum_to_holder_value, hh, hcc] <;>
      try simp
    split_ifs with hgt hle <;> simp <;> omega
  · decide

/-- Witness for C6: a state where the two views differ by 5 within
epsilon 10. -/
theorem c6_minimum_to_holder_value_witness :
    ({ EnforcementState.new 0 with
        current_holder_commit_info := some ⟨100000, 0, 0, [], []⟩
        current_counterparty_commit_info := some ⟨0, 100005, 0, [], []⟩
      } : EnforcementState).minimum_to_holder_value 10 = some 100000 :=
  (c6_minimum_to_holder_value.1 _ 10 100000).mpr
    ⟨⟨100000, 0, 0, [], []⟩, ⟨0, 100005, 0, [], []⟩, rfl, rfl, by decide, by decide⟩

/-- C7: `payments_summary` maps each payment hash to the max of the holder
offered sum and the counterparty received sum for that hash (each view
taken from the new tx when supplied and from the current commit info
otherwise), a hash present in a single view contributing its single sum;
consequently the summary is unchanged under any reordering of the HTLC
lists inside the commitments. -/

theorem c7_payments_summary_spec :
    (∀ (st : EnforcementState) (nh nc : Option CommitmentInfo2) (k : PaymentHash),
      st.payments_summary nh nc k =
        (let hlist := ((nh.orElse fun _ => st.current_holder_commit_info).map
            fun h => h.offered_htlcs).getD []
         let clist := ((nc.orElse fun _ => st.current_counterparty_commit_info).map
            fun c => c.received_htlcs).getD []
         if hasHash hlist k then
           if hasHash clist k then some (max (sumByHash hlist k) (sumByHash clist k))
           else some (sumByHash hlist k)
         else if hasHash clist k then some (sumByHash clist k)
         else none)) ∧
    (∀ (st st' : EnforcementState) (nh nh' nc nc' : Option CommitmentInfo2),
      ViewPerm nh nh' → ViewPerm nc nc' →
      ViewPerm st.current_holder_commit_info st'.current_holder_commit_info →
      ViewPerm st.current_counterparty_commit_info st'.current_counterparty_commit_info →
      ∀ k, st.payments_summary nh nc k = st'.payments_summary nh' nc' k) := by
  refine ⟨payments_summary_closed, ?_⟩
  intro st st' nh nh' nc nc' h1 h2 h3 h4 k
  have hv1 := viewPerm_orElse h1 h3
  have hv2 := viewPerm_orElse h2 h4
  rw [payments_summary_closed, payments_summary_closed]
  rcases hv1.elim_cases with ⟨hA, hA2⟩ | ⟨x, x2, hA, hA2, hpo, hpr⟩ <;>
    rcases hv2.elim_cases with ⟨hB, hB2⟩ | ⟨y, y2, hB, hB2, hqo, hqr⟩ <;>
    simp only [hA, hA2, hB, hB2, Option.map_none', Option.map_some',
      Option.getD_none, Option.getD_some]
  · rw [hasHash_perm hqr, sumByHash_perm hqr]
  · rw [hasHash_perm hpo, sumByHash_perm hpo]
  · rw [hasHash_perm hpo, sumByHash_perm hpo, hasHash_perm hqr, sumByHash_perm hqr]

/-- Witness for C7: reordering two offered HTLCs does not change the
summary. -/

theorem c7_payments_summary_spec_witness :
    (EnforcementState.new 0).payments_summary
        (some ⟨0, 0, 0, [htlcA, htlcB], []⟩) none 5 =
      (EnforcementState.new 0).payments_summary
        (some ⟨0, 0, 0, [htlcB, htlcA], []⟩) none 5 :=
  c7_payments_summary_spec.2 (EnforcementState.new 0) (EnforcementState.new 0)
    (some ⟨0, 0, 0, [htlcA, htlcB], []⟩) (some ⟨0, 0, 0, [htlcB, htlcA], []⟩)
    none none
    ⟨rfl, rfl, rfl, by decide, by decide⟩ trivial trivial trivial 5

/-- C8: `incoming_payments_summary` contains exactly the payment hashes
present in both the holder received view and the counterparty offered view
(each view summed by hash, from the new tx when supplied and from the
current commit info otherwise), mapping each to the min of the two sums; a
hash present in only one view is absent. -/

theorem c8_incoming_payments_summary_spec :
    ∀ (st : EnforcementState) (nh nc : Option CommitmentInfo2) (k : PaymentHash),
      st.incoming_payments_summary nh nc k =
        (let hlist := ((nh.orElse fun _ => st.current_holder_commit_info).map
            fun h => h.received_htlcs).getD []
         let clist := ((nc.orElse fun _ => st.current_counterparty_commit_info).map
            fun c => c.offered_htlcs).getD []
         if hasHash hlist k && hasHash clist k then
           some (min (sumByHash hlist k) (sumByHash clist k))
         else none) :=
  incoming_payments_summary_closed

/-- C9: in every reachable state, a positive
`next_counterparty_commit_num` guarantees the current counterparty point
and commit info are set, invariant (I3) holds for the previous point, the
retry assertion of `set_next_counterparty_commit_num` and the panic of
`get_previous_counterparty_point` are unreachable, and
`get_previous_counterparty_point` returns the current point at
`num + 1 = commit`, the previous point at `num + 2 = commit`, and an
out-of-range policy error otherwise. -/

theorem c9_points_invariant_and_no_panic (st : EnforcementState) (h : Reachable st) :
    (1 ≤ st.next_counterparty_commit_num →
      st.current_counterparty_point.isSome = true ∧
      st.current_counterparty_commit_info.isSome = true) ∧
    (2 ≤ st.next_counterparty_commit_num ∧
       st.next_counterparty_revoke_num < st.next_counterparty_commit_num - 1 →
      st.previous_counterparty_point.isSome = true) ∧
    (∀ num point info,
      (st.set_next_counterparty_commit_num num point info).1.isPanicked = false) ∧
    (∀ num, (st.get_previous_counterparty_point num).isPanicked = false) ∧
    (∀ num, num + 1 = st.next_counterparty_commit_num →
      ∃ p, st.current_counterparty_point = some p ∧
        st.get_previous_counterparty_point num = .ok p) ∧
    (∀ num, num + 2 = st.next_counterparty_commit_num →
      ∃ p, st.previous_counterparty_point = some p ∧
        st.get_previous_counterparty_point num = .ok p) ∧
    (∀ num, num + 1 ≠ st.next_counterparty_commit_num →
      num + 2 ≠ st.next_counterparty_commit_num →
      (st.get_previous_counterparty_point num).isPolicyErr = true) := by
  have hinv := reachable_points_inv h
  have hcur : ∀ num, num + 1 = st.next_counterparty_commit_num →
      ∃ p, st.current_counterparty_point = some p ∧
        st.get_previous_counterparty_point num = .ok p := by
    intro num hn
    obtain ⟨hcp, -⟩ := hinv.1 (by omega)
    obtain ⟨p, hp⟩ := Option.isSome_iff_exists.mp hcp
    refine ⟨p, hp, ?_⟩
    simp only [EnforcementState.get_previous_counterparty_point, if_pos hn, hp]
  have hprev : ∀ num, num + 2 = st.next_counterparty_commit_num →
      ∃ p, st.previous_counterparty_point = some p ∧
        st.get_previous_counterparty_point num = .ok p := by
    intro num hn
    have hpp := hinv.2 (by omega)
    obtain ⟨p, hp⟩ := Option.isSome_iff_exists.mp hpp
    refine ⟨p, hp, ?_⟩
    have hne : ¬ num + 1 = st.next_counterparty_commit_num := by omega
    simp only [EnforcementState.get_previous_counterparty_point, if_neg hne, if_pos hn, hp]
  refine ⟨hinv.1, fun h2 => hinv.2 h2.1, ?_, ?_, hcur, hprev, ?_⟩
  · intro num point info
    simp only [EnforcementState.set_next_counterparty_commit_num]
    by_cases h0 : num = 0
    · rw [if_pos h0]; rfl
    rw [if_neg h0]
    by_cases hlo : num < st.next_counterparty_revoke_num + if num = 1 then 1 else 2
    · rw [if_pos hlo]; rfl
    rw [if_neg hlo]
    by_cases hhi : num > st.next_counterparty_revoke_num + 2
    · rw [if_pos hhi]; rfl
    rw [if_neg hhi]
    by_cases hret : num = st.next_counterparty_commit_num
    · rw [if_pos hret]
      obtain ⟨hcp, -⟩ := hinv.1 (by omega)
      obtain ⟨p, hp⟩ := Option.isSome_iff_exists.mp hcp
      rw [hp]
      dsimp only
      by_cases hpt : point ≠ p
      · rw [if_pos hpt]; rfl
      · rw [if_neg hpt]; rfl
    rw [if_neg hret]
    by_cases hadv : num = st.next_counterparty_commit_num + 1
    · rw [if_pos hadv]; rfl
    · rw [if_neg hadv]; rfl
  · intro num
    by_cases hn1 : num + 1 = st.next_counterparty_commit_num
    · obtain ⟨p, -, hok⟩ := hcur num hn1
      rw [hok]; rfl
    by_cases hn2 : num + 2 = st.next_counterparty_commit_num
    · obtain ⟨p, -, hok⟩ := hprev num hn2
      rw [hok]; rfl
    · simp only [EnforcementState.get_previous_counterparty_point, if_neg hn1, if_neg hn2]
      rfl
  · intro num hn1 hn2
    simp only [EnforcementState.get_previous_counterparty_point, if_neg hn1, if_neg hn2]
    rfl

/-- Witness for C9: on `w2` the point for commitment 1 is read back. -/

theorem c9_points_invariant_and_no_panic_witness :
    ∃ p, w2.current_counterparty_point = some p ∧
      w2.get_previous_counterparty_point 1 = .ok p :=
  (c9_points_invariant_and_no_panic w2 reachable_w2).2.2.2.2.1 1 (by decide)

/-- C10: delayed-sweep validation accepts a single-input single-output
transaction with version 2, lock time 0, sequence equal to the contest
delay, a wallet-derived or allowlisted output and a fee within bounds, and
rejects version 3, lock time 1000000, sequence 42, a second input, a zero
fee, an over-maximum fee, and an underflowing `amount_sat` minus output
value, each with the corresponding error. -/

theorem c10_validate_delayed_sweep
    (w : Script → List Nat → Bool) (al : Script → Bool) (cd : Nat)
    (spk : Script) (kp : List Nat)
    (hdest : w spk kp = true ∨ al spk = true) (hcd : cd ≠ 42) :
    (∀ amount outv, outv ≤ amount → sweep_fee_min ≤ amount - outv →
      amount - outv ≤ sweep_fee_max →
      validate_delayed_sweep w al cd ⟨2, 0, [⟨cd⟩], [⟨spk, outv⟩]⟩ 0 amount kp = .ok ()) ∧
    (validate_delayed_sweep w al cd ⟨3, 0, [⟨cd⟩], [⟨spk, 1978997⟩]⟩ 0 1979997 kp =
      .err (.TransactionFormat "validate_delayed_sweep: bad delayed sweep version: 3")) ∧
    (validate_delayed_sweep w al cd ⟨2, 1000000, [⟨cd⟩], [⟨spk, 1978997⟩]⟩ 0 1979997 kp =
      .err (.TransactionFormat
        "validate_delayed_sweep: bad delayed sweep locktime: 1000000 > 0")) ∧
    (validate_delayed_sweep w al cd ⟨2, 0, [⟨42⟩], [⟨spk, 1978997⟩]⟩ 0 1979997 kp =
      .err (.TransactionFormat
        s!"validate_delayed_sweep: bad delayed sweep sequence: {42} != {cd}")) ∧
    (validate_delayed_sweep w al cd ⟨2, 0, [⟨cd⟩, ⟨cd⟩], [⟨spk, 1978997⟩]⟩ 0 1979997 kp =
      .err (.TransactionFormat
        "validate_delayed_sweep: bad number of delayed sweep inputs: 2 != 1")) ∧
    (validate_delayed_sweep w al cd ⟨2, 0, [⟨cd⟩], [⟨spk, 1978997⟩]⟩ 0 1978997 kp =
      .err (.Policy "validate_fee: validate_delayed_sweep: fee below minimum: 0 < 100")) ∧
    (validate_delayed_sweep w al cd ⟨2, 0, [⟨cd⟩], [⟨spk, 1000⟩]⟩ 0 1979997 kp =
      .err (.Policy
        "validate_fee: validate_delayed_sweep: fee above maximum: 1978997 > 46000")) ∧
    (validate_delayed_sweep w al cd ⟨2, 0, [⟨cd⟩], [⟨spk, 1978997⟩]⟩ 0 1879997 kp =
      .err (.Policy "delayed sweep fee underflow: 1879997 - 1978997")) := by
  have hw : (w spk kp || al spk) = true := by
    rcases hdest with h | h <;> simp [h]
  refine ⟨?_, ?_, ?_, ?_, ?_, ?_, ?_, ?_⟩
  · intro amount outv hle hmin hmax
    simp only [validate_delayed_sweep, hw]
    have h1 : ¬ amount < outv := by omega
    have h2 : ¬ amount - outv < sweep_fee_min := by omega
    have h3 : ¬ amount - outv > sweep_fee_max := by omega
    simp [h1, h2, h3]
  · simp only [validate_delayed_sweep]
    rfl
  · simp only [validate_delayed_sweep]
    rfl
  · have h42 : (42 : Nat) ≠ cd := fun e => hcd e.symm
    simp [validate_delayed_sweep, h42]
  · simp [validate_delayed_sweep]
    rfl
  · simp only [validate_delayed_sweep, hw]
    simp [sweep_fee_min]
    rfl
  · simp only [validate_delayed_sweep, hw]
    simp [sweep_fee_min, sweep_fee_max]
    rfl
  · simp only [validate_delayed_sweep, hw]
    simp
    rfl

/-- Witness for C10: a well-formed delayed sweep is accepted. -/

theorem c10_validate_delayed_sweep_witness :
    validate_delayed_sweep (fun _ _ => true) (fun _ => false) 7
      ⟨2, 0, [⟨7⟩], [⟨19, 1978997⟩]⟩ 0 1979997 [19] = .ok () :=
  (c10_validate_delayed_sweep (fun _ _ => true) (fun _ => false) 7 19 [19]
    (Or.inl rfl) (by decide)).1 1979997 1978997 (by decide) (by decide) (by decide)
